import Mathlib

/-!
# Verification of the notification / async / storage hook contracts

A shallow embedding, in Lean 4, of the stateful logic of this repository's
React hooks and context providers:

* `src/contexts/NotificationContext.tsx` — the notification queue
  (`generateId`, `addNotification`, `removeNotification`, timers);
* `src/hooks/useAsync.ts` — the async operation wrapper (`useAsync`'s
  `execute`, its mounted-flag guard and error normalization);
* `src/hooks/useDebounce.ts` — the throttled callback (`useThrottle`);
* the `useLocalStorage` hook (storage round-trip);
* the form context provider (`resetForm`).

React state cells become explicit state records; `setState` calls become
functions from state to state; timers become an explicit list of scheduled
(id, fire-time) pairs; the event loop's interleaving becomes lists of
events processed in order.  Machine time (`Date.now()`) is a `Nat` (or an
`Int` where differences matter) supplied as an explicit argument.
-/

namespace VibeHooks

/-! ## Notification queue (`src/contexts/NotificationContext.tsx`) -/

/-- `NotificationType` from NotificationContext.tsx:
`'success' | 'error' | 'warning' | 'info'`. -/
inductive NotificationType where
  | success
  | error
  | warning
  | info
deriving DecidableEq, Repr

/-- The `Notification` record from NotificationContext.tsx.  `duration` is in
milliseconds (`0` = persist until explicitly removed); `timestamp` is the
`Date.now()` value at creation. -/
structure Notification where
  id : String
  message : String
  type : NotificationType
  duration : Nat
  timestamp : Nat
deriving DecidableEq, Repr

/-- The provider's state: the `notifications` array plus the set of pending
`setTimeout` auto-removals, each as an (id, fire-time) pair. -/
structure NotificationState where
  notifications : List Notification
  timers : List (String × Nat)
deriving DecidableEq, Repr

/-- `generateId` from NotificationContext.tsx:
`` `${Date.now()}-${Math.random().toString(36).substr(2, 9)}` ``.
The template literal renders `Date.now()` in decimal (`Nat.repr`), then a
dash, then the random base-36 fragment `r` drawn from the environment. -/
def generateId (t : Nat) (r : String) : String :=
  Nat.repr t ++ "-" ++ r

/-- The ids produced by a sequence of `addNotification` calls, each call
described by its environment draws (the `Date.now()` value, the
`Math.random().toString(36).substr(2, 9)` string). -/
def generatedIds (calls : List (Nat × String)) : List String :=
  calls.map fun c => generateId c.1 c.2

/-- `removeNotification` from NotificationContext.tsx:
`setNotifications(prev => prev.filter(notification => notification.id !== id))`. -/
def removeNotification (s : NotificationState) (id : String) : NotificationState :=
  { s with notifications := s.notifications.filter fun n => n.id != id }

/-- `clearNotifications` from NotificationContext.tsx: `setNotifications([])`. -/
def clearNotifications (s : NotificationState) : NotificationState :=
  { s with notifications := [] }

/-- `addNotification` from NotificationContext.tsx, with the id already
generated and `Date.now()` passed as `now`: appends the new notification to
the end of the array and, when `duration > 0`, schedules the auto-removal
`setTimeout(() => removeNotification(id), duration)`, which fires at
`now + duration`. -/
def addNotification (s : NotificationState) (now : Nat) (id : String)
    (message : String) (type : NotificationType) (duration : Nat) :
    NotificationState :=
  let notification : Notification :=
    { id := id, message := message, type := type, duration := duration,
      timestamp := now }
  { notifications := s.notifications ++ [notification],
    timers :=
      if duration > 0 then s.timers ++ [(id, now + duration)] else s.timers }

/-- A pending `setTimeout` firing: runs `removeNotification id` and retires
the timer. -/
def fireTimer (s : NotificationState) (t : String × Nat) : NotificationState :=
  { removeNotification s t.1 with timers := s.timers.erase t }

/-! ### Decimal rendering of the id's time component

`Nat.repr` is defined through the fuel-based `Nat.toDigitsCore`; to reason
about it we show it equal to the structurally recursive `decDigits` and
prove that decoding the digit string recovers the number. -/

/-- Most-significant-first decimal digit characters of `n`, structurally. -/
def decDigits (n : Nat) : List Char :=
  if n < 10 then [Nat.digitChar n]
  else decDigits (n / 10) ++ [Nat.digitChar (n % 10)]
termination_by n
decreasing_by
  exact Nat.div_lt_self (by omega) (by omega)

/-- The numeric value of a decimal digit character. -/
def decVal (c : Char) : Nat := c.toNat - 48

/-- Decode a most-significant-first decimal digit string. -/
def decodeDigits (l : List Char) : Nat :=
  l.foldl (fun a c => a * 10 + decVal c) 0

theorem toDigitsCore_eq_decDigits (fuel : Nat) :
    ∀ (n : Nat) (acc : List Char), n < fuel →
      Nat.toDigitsCore 10 fuel n acc = decDigits n ++ acc := by
  induction fuel with
  | zero => intro n acc h; omega
  | succ fuel ih =>
    intro n acc h
    show (if n / 10 = 0 then Nat.digitChar (n % 10) :: acc
        else Nat.toDigitsCore 10 fuel (n / 10) (Nat.digitChar (n % 10) :: acc))
      = decDigits n ++ acc
    by_cases h10 : n / 10 = 0
    · have hn : n < 10 := by omega
      rw [if_pos h10, decDigits, if_pos hn, Nat.mod_eq_of_lt hn]
      rfl
    · have hn : ¬ n < 10 := by omega
      rw [if_neg h10, ih (n / 10) (Nat.digitChar (n % 10) :: acc) (by omega)]
      conv_rhs => rw [decDigits, if_neg hn]
      rw [List.append_assoc]
      rfl

theorem decVal_digitChar : ∀ d, d < 10 → decVal (Nat.digitChar d) = d := by decide

theorem decodeDigits_append (l : List Char) (c : Char) :
    decodeDigits (l ++ [c]) = decodeDigits l * 10 + decVal c := by
  simp [decodeDigits, List.foldl_append]

theorem decodeDigits_decDigits (n : Nat) : decodeDigits (decDigits n) = n := by
  induction n using Nat.strong_induction_on with
  | _ n ih =>
    rw [decDigits]
    by_cases hn : n < 10
    · rw [if_pos hn]
      simpa [decodeDigits] using decVal_digitChar n hn
    · rw [if_neg hn, decodeDigits_append,
        ih (n / 10) (Nat.div_lt_self (by omega) (by omega)),
        decVal_digitChar (n % 10) (Nat.mod_lt n (by omega))]
      omega

theorem digitChar_ne_dash : ∀ d, d < 10 → Nat.digitChar d ≠ '-' := by decide

theorem dash_not_mem_decDigits (n : Nat) : '-' ∉ decDigits n := by
  induction n using Nat.strong_induction_on with
  | _ n ih =>
    rw [decDigits]
    by_cases hn : n < 10
    · rw [if_pos hn]
      intro hmem
      exact digitChar_ne_dash n hn (List.mem_singleton.mp hmem).symm
    · rw [if_neg hn]
      intro hmem
      rcases List.mem_append.mp hmem with h | h
      · exact ih (n / 10) (Nat.div_lt_self (by omega) (by omega)) h
      · exact digitChar_ne_dash (n % 10) (Nat.mod_lt n (by omega))
          (List.mem_singleton.mp h).symm

theorem append_dash_cancel :
    ∀ (l1 l2 r1 r2 : List Char), '-' ∉ l1 → '-' ∉ l2 →
      l1 ++ '-' :: r1 = l2 ++ '-' :: r2 → l1 = l2 ∧ r1 = r2 := by
  intro l1
  induction l1 with
  | nil =>
    intro l2 r1 r2 _ h2 h
    cases l2 with
    | nil =>
      refine ⟨rfl, ?_⟩
      simpa using h
    | cons c l2 =>
      simp only [List.nil_append, List.cons_append, List.cons.injEq] at h
      exact absurd (h.1 ▸ List.mem_cons_self c l2) h2
  | cons c l1 ih =>
    intro l2 r1 r2 h1 h2 h
    cases l2 with
    | nil =>
      simp only [List.cons_append, List.nil_append, List.cons.injEq] at h
      exact absurd (h.1 ▸ List.mem_cons_self c l1) h1
    | cons d l2 =>
      simp only [List.cons_append, List.cons.injEq] at h
      have h1' : '-' ∉ l1 := fun hm => h1 (List.mem_cons_of_mem c hm)
      have h2' : '-' ∉ l2 := fun hm => h2 (List.mem_cons_of_mem d hm)
      obtain ⟨hl, hr⟩ := ih l2 r1 r2 h1' h2' h.2
      exact ⟨by rw [h.1, hl], hr⟩

theorem repr_eq_decDigits (n : Nat) : Nat.repr n = (decDigits n).asString := by
  show (Nat.toDigits 10 n).asString = (decDigits n).asString
  rw [Nat.toDigits, toDigitsCore_eq_decDigits (n + 1) n [] (Nat.lt_succ_self n),
    List.append_nil]

theorem generateId_data (t : Nat) (r : String) :
    (generateId t r).data = decDigits t ++ '-' :: r.data := by
  show (Nat.repr t ++ "-" ++ r).data = decDigits t ++ '-' :: r.data
  rw [String.data_append, String.data_append, repr_eq_decDigits]
  show decDigits t ++ ['-'] ++ r.data = decDigits t ++ '-' :: r.data
  rw [List.append_assoc]
  rfl

/-- C4 (amended): two `addNotification` calls whose environment draws differ
— a different `Date.now()` millisecond or a different random fragment —
generate distinct ids.  (Two calls in the same millisecond that draw the
same random string collide; see the counterexample.) -/
theorem generateId_inj (t1 t2 : Nat) (r1 r2 : String)
    (hne : t1 ≠ t2 ∨ r1 ≠ r2) : generateId t1 r1 ≠ generateId t2 r2 := by
  intro h
  have hdata : (generateId t1 r1).data = (generateId t2 r2).data := by rw [h]
  rw [generateId_data, generateId_data] at hdata
  obtain ⟨hl, hr⟩ := append_dash_cancel (decDigits t1) (decDigits t2)
    r1.data r2.data (dash_not_mem_decDigits t1) (dash_not_mem_decDigits t2)
    hdata
  have ht : t1 = t2 := by
    have h2 := congrArg decodeDigits hl
    rwa [decodeDigits_decDigits, decodeDigits_decDigits] at h2
  have hrs : r1 = r2 := String.ext hr
  rcases hne with hne | hne
  · exact hne ht
  · exact hne hrs

/-- Witness for `generateId_inj` at concrete draws. -/
theorem generateId_inj_witness :
    ((1712345678901 : Nat) ≠ 1712345678902 ∨ "k2j9x7q4m" ≠ "k2j9x7q4m")
    ∧ generateId 1712345678901 "k2j9x7q4m" ≠ generateId 1712345678902 "k2j9x7q4m" :=
  ⟨Or.inl (by decide),
   generateId_inj 1712345678901 1712345678902 "k2j9x7q4m" "k2j9x7q4m"
     (Or.inl (by decide))⟩

/-- C4 counterexample: two distinct `addNotification` calls that happen in
the same `Date.now()` millisecond and draw the same `Math.random()` fragment
produce the same id — the generated ids are not always distinct. -/
theorem generateId_collision :
    ¬ (generatedIds
        [(1712345678901, "k2j9x7q4m"), (1712345678901, "k2j9x7q4m")]).Nodup := by
  decide

/-- C5: `addNotification` appends the new notification at the end; with
`duration > 0` it schedules the auto-removal to fire at `now + duration`,
and once that timer fires the notification is gone from the queue; with
`duration = 0` no removal is scheduled, and firing any other scheduled
timer leaves the notification in the queue. -/
theorem addNotification_spec (s : NotificationState) (now : Nat)
    (id message : String) (type : NotificationType) (duration : Nat) :
    (addNotification s now id message type duration).notifications
        = s.notifications ++ [⟨id, message, type, duration, now⟩]
    ∧ (0 < duration →
        (id, now + duration)
            ∈ (addNotification s now id message type duration).timers
        ∧ ∀ n ∈ (fireTimer (addNotification s now id message type duration)
              (id, now + duration)).notifications, n.id ≠ id)
    ∧ (duration = 0 →
        (addNotification s now id message type duration).timers = s.timers
        ∧ ∀ t ∈ (addNotification s now id message type duration).timers,
            t.1 ≠ id →
            (⟨id, message, type, duration, now⟩ : Notification)
              ∈ (fireTimer (addNotification s now id message type duration)
                  t).notifications) := by
  refine ⟨rfl, fun hdur => ⟨?_, ?_⟩, fun hdur => ⟨?_, ?_⟩⟩
  · show (id, now + duration)
        ∈ (if duration > 0 then s.timers ++ [(id, now + duration)] else s.timers)
    rw [if_pos hdur]
    exact List.mem_append_right _ (List.mem_singleton_self _)
  · intro n hn
    simp only [fireTimer, removeNotification, List.mem_filter] at hn
    simpa using hn.2
  · show (if duration > 0 then s.timers ++ [(id, now + duration)] else s.timers)
        = s.timers
    rw [if_neg (by omega)]
  · intro t ht hne
    refine List.mem_filter.mpr ⟨?_, ?_⟩
    · exact List.mem_append_right _ (List.mem_singleton_self _)
    · simpa using fun h => hne h.symm

/-- C9: removing an id that is absent from the queue is a no-op, and
removal is idempotent — removing the same id twice equals removing it once. -/
theorem removeNotification_idem (s : NotificationState) (id : String) :
    ((∀ n ∈ s.notifications, n.id ≠ id) → removeNotification s id = s)
    ∧ removeNotification (removeNotification s id) id
        = removeNotification s id := by
  constructor
  · intro habs
    cases s with
    | mk ns ts =>
      simp only [removeNotification, NotificationState.mk.injEq, and_true]
      exact List.filter_eq_self.mpr fun n hn => by simpa using habs n hn
  · cases s with
    | mk ns ts =>
      simp only [removeNotification, NotificationState.mk.injEq, and_true]
      exact List.filter_eq_self.mpr fun n hn => (List.mem_filter.mp hn).2

/-- C10: `removeNotification` removes exactly the notifications whose id
equals the argument, keeps every other notification unchanged in its
original relative order, and does not touch the timers. -/
theorem removeNotification_frame (s : NotificationState) (id : String) :
    (removeNotification s id).notifications.Sublist s.notifications
    ∧ (∀ n : Notification,
        n ∈ (removeNotification s id).notifications ↔
          n ∈ s.notifications ∧ n.id ≠ id)
    ∧ (removeNotification s id).timers = s.timers := by
  refine ⟨List.filter_sublist _, fun n => ?_, rfl⟩
  simp [removeNotification, List.mem_filter]

/-! ## Async operation wrapper (`src/hooks/useAsync.ts`) -/

/-- The `status` field of `AsyncState`:
`'idle' | 'loading' | 'success' | 'error'`. -/
inductive AsyncStatus where
  | idle
  | loading
  | success
  | error
deriving DecidableEq, Repr

/-- A JavaScript `Error` object, reduced to the part the hook contract
speaks about: its `message`. -/
structure ErrorObj where
  message : String
deriving DecidableEq, Repr

/-- A value thrown/rejected by the wrapped async function: either already an
`Error` object (`error instanceof Error`), or any other value, modelled by
its `String(error)` rendering. -/
inductive Thrown where
  | errObj (e : ErrorObj)
  | nonError (stringForm : String)
deriving DecidableEq, Repr

/-- The `AsyncState<T>` record from useAsync.ts.  `data : T | null` and
`error : Error | null` become `Option`s. -/
structure AsyncState (α : Type) where
  status : AsyncStatus
  data : Option α
  error : Option ErrorObj
  isLoading : Bool
deriving DecidableEq, Repr

/-- The initial `useState` value of `useAsync`. -/
def idleAsync {α : Type} : AsyncState α :=
  { status := AsyncStatus.idle, data := none, error := none, isLoading := false }

/-- The state `execute` writes on entry:
`setState({ status: 'loading', data: null, error: null, isLoading: true })`. -/
def loadingAsync {α : Type} : AsyncState α :=
  { status := AsyncStatus.loading, data := none, error := none, isLoading := true }

/-- The state written when the awaited function resolves with `response`. -/
def successAsync {α : Type} (response : α) : AsyncState α :=
  { status := AsyncStatus.success, data := some response, error := none,
    isLoading := false }

/-- The state written when the awaited function rejects. -/
def errorAsync {α : Type} (e : ErrorObj) : AsyncState α :=
  { status := AsyncStatus.error, data := none, error := some e,
    isLoading := false }

/-- The catch branch's normalization from useAsync.ts:
`error instanceof Error ? error : new Error(String(error))`. -/
def normalizeError : Thrown → ErrorObj
  | Thrown.errObj e => e
  | Thrown.nonError s => { message := s }

/-- The async states reachable through `useAsync`'s transitions: the initial
state, entering `loading` at the start of any `execute()` call, and — from
whatever state the component is in when a call settles — resolving to
`success` or rejecting to the normalized `error` state. -/
inductive ReachableAsync {α : Type} : AsyncState α → Prop where
  | init : ReachableAsync idleAsync
  | start (s : AsyncState α) :
      ReachableAsync s → ReachableAsync loadingAsync
  | settleSuccess (s : AsyncState α) (r : α) :
      ReachableAsync s → ReachableAsync (successAsync r)
  | settleError (s : AsyncState α) (e : Thrown) :
      ReachableAsync s → ReachableAsync (errorAsync (normalizeError e))

/-- Exactly one of `data` / `error` is non-null. -/
def exclusiveDataError {α : Type} (s : AsyncState α) : Prop :=
  (s.data ≠ none ∧ s.error = none) ∨ (s.data = none ∧ s.error ≠ none)

/-- C3: in every reachable async state whose status is neither `idle` nor
`loading`, exactly one of `data` and `error` is non-null. -/
theorem asyncState_data_error_exclusive {α : Type} (s : AsyncState α)
    (h : ReachableAsync s) (h1 : s.status ≠ AsyncStatus.idle)
    (h2 : s.status ≠ AsyncStatus.loading) : exclusiveDataError s := by
  revert h1 h2
  induction h with
  | init => intro h1 _; exact absurd rfl h1
  | start s0 hs ih => intro _ h2; exact absurd rfl h2
  | settleSuccess s0 r hs ih =>
      intro _ _
      exact Or.inl ⟨Option.some_ne_none r, rfl⟩
  | settleError s0 e hs ih =>
      intro _ _
      exact Or.inr ⟨rfl, Option.some_ne_none (normalizeError e)⟩

/-- Witness for `asyncState_data_error_exclusive`: the reachable state after
`execute()` resolves with `5`. -/
theorem asyncState_data_error_exclusive_witness :
    exclusiveDataError (successAsync (5 : Nat)) :=
  asyncState_data_error_exclusive (successAsync 5)
    (ReachableAsync.settleSuccess idleAsync 5 ReachableAsync.init)
    (by decide) (by decide)

/-- The full wrapper: the mounted flag `isMountedRef` next to the async
state cell. -/
structure WrapperState (α : Type) where
  mounted : Bool
  async : AsyncState α
deriving DecidableEq, Repr

/-- The unconditional first write of `execute()`. -/
def executeStart {α : Type} (s : WrapperState α) : WrapperState α :=
  { s with async := loadingAsync }

/-- The settlement of the awaited call in `execute()`: both the success
write and the error write are guarded by `if (isMountedRef.current)`. -/
def executeSettle {α : Type} (s : WrapperState α) (outcome : Except Thrown α) :
    WrapperState α :=
  if s.mounted then
    match outcome with
    | Except.ok r => { s with async := successAsync r }
    | Except.error e => { s with async := errorAsync (normalizeError e) }
  else s

/-- The unmount cleanup of the `useEffect`: `isMountedRef.current = false`. -/
def unmountWrapper {α : Type} (s : WrapperState α) : WrapperState α :=
  { s with mounted := false }

/-- The settlements of any number of in-flight calls, applied in the order
the event loop runs them. -/
def settleAll {α : Type} (s : WrapperState α)
    (outcomes : List (Except Thrown α)) : WrapperState α :=
  outcomes.foldl executeSettle s

theorem executeSettle_unmounted {α : Type} (s : WrapperState α)
    (h : s.mounted = false) (o : Except Thrown α) : executeSettle s o = s := by
  simp [executeSettle, h]

/-- C6: once the consumer has detached (the mounted flag is cleared), the
settlement of any in-flight operations — resolutions and rejections alike —
leaves the wrapper's state bit-for-bit unchanged. -/
theorem detached_settle_no_mutation {α : Type} (s : WrapperState α)
    (outcomes : List (Except Thrown α)) :
    settleAll (unmountWrapper s) outcomes = unmountWrapper s := by
  induction outcomes with
  | nil => rfl
  | cons o rest ih =>
      show settleAll (executeSettle (unmountWrapper s) o) rest = unmountWrapper s
      rw [executeSettle_unmounted (unmountWrapper s) rfl o]
      exact ih

/-- C7: a rejection never escapes `execute()`: while mounted, it lands the
wrapper in status `error` with `data` null and `error` carrying the thrown
value's message — the thrown `Error` itself, or an `Error` wrapping the
string form of a non-`Error` value. -/
theorem execute_normalizes_errors {α : Type} (s : WrapperState α)
    (hm : s.mounted = true) (e : Thrown) :
    (executeSettle s (Except.error e)).async.status = AsyncStatus.error
    ∧ (executeSettle s (Except.error e)).async.data = none
    ∧ (executeSettle s (Except.error e)).async.error = some (normalizeError e)
    ∧ (∀ eo : ErrorObj, normalizeError (Thrown.errObj eo) = eo)
    ∧ (∀ msg : String, (normalizeError (Thrown.nonError msg)).message = msg) := by
  refine ⟨?_, ?_, ?_, fun eo => rfl, fun msg => rfl⟩ <;>
    simp [executeSettle, hm, errorAsync]

/-- Witness for `execute_normalizes_errors`: a mounted wrapper whose async
function rejects with the non-`Error` value rendered `"boom"`. -/
theorem execute_normalizes_errors_witness :
    (executeSettle (WrapperState.mk true (idleAsync : AsyncState Nat))
        (Except.error (Thrown.nonError "boom"))).async.status = AsyncStatus.error
    ∧ (executeSettle (WrapperState.mk true (idleAsync : AsyncState Nat))
        (Except.error (Thrown.nonError "boom"))).async.data = none
    ∧ (executeSettle (WrapperState.mk true (idleAsync : AsyncState Nat))
        (Except.error (Thrown.nonError "boom"))).async.error
          = some (normalizeError (Thrown.nonError "boom"))
    ∧ (∀ eo : ErrorObj, normalizeError (Thrown.errObj eo) = eo)
    ∧ (∀ msg : String, (normalizeError (Thrown.nonError msg)).message = msg) :=
  execute_normalizes_errors (WrapperState.mk true idleAsync) rfl
    (Thrown.nonError "boom")

/-! ## Throttled callback (`src/hooks/useDebounce.ts`, `useThrottle`) -/

/-- One invocation of the throttled callback from useDebounce.ts.  The state
is `lastRunRef.current` (a `Date.now()` timestamp, initialized at hook
creation); `now` is `Date.now()` at the invocation.  Returns whether the
callback executed and the new `lastRunRef.current`:
`if (now - lastRunRef.current >= delay) { lastRunRef.current = now; callback(...) }`. -/
def throttleStep (delay lastRun now : Int) : Bool × Int :=
  if delay ≤ now - lastRun then (true, now) else (false, lastRun)

/-- A sequence of invocations at the given times, counting how many of them
executed the callback. -/
def throttleRun (delay : Int) : Int → List Int → Nat
  | _, [] => 0
  | lastRun, now :: rest =>
      let s := throttleStep delay lastRun now
      (if s.1 then 1 else 0) + throttleRun delay s.2 rest

theorem throttleRun_eq_zero (delay lastRun : Int) (ts : List Int)
    (h : ∀ t ∈ ts, t - lastRun < delay) : throttleRun delay lastRun ts = 0 := by
  induction ts with
  | nil => rfl
  | cons t rest ih =>
      have hd : ¬ delay ≤ t - lastRun := by
        have := h t (List.mem_cons_self t rest)
        omega
      show (if (throttleStep delay lastRun t).1 then 1 else 0)
          + throttleRun delay (throttleStep delay lastRun t).2 rest = 0
      rw [throttleStep, if_neg hd]
      simpa using ih fun x hx => h x (List.mem_cons_of_mem t hx)

/-- C2: an invocation of the throttled callback executes exactly when at
least `delay` ms have elapsed since the stored last-run timestamp; a dropped
invocation leaves the state untouched (nothing is queued); and any number of
invocations inside a window shorter than `delay` execute at most once. -/
theorem useThrottle_spec (delay lastRun now lo hi : Int) (ts : List Int)
    (hwin : ∀ t ∈ ts, lo ≤ t ∧ t ≤ hi) (hlt : hi - lo < delay) :
    ((throttleStep delay lastRun now).1 = true ↔ delay ≤ now - lastRun)
    ∧ ((throttleStep delay lastRun now).1 = false →
        throttleStep delay lastRun now = (false, lastRun))
    ∧ throttleRun delay lastRun ts ≤ 1 := by
  refine ⟨?_, ?_, ?_⟩
  · rw [throttleStep]
    by_cases hd : delay ≤ now - lastRun
    · simp [hd]
    · simp [hd]
  · intro hfalse
    rw [throttleStep] at hfalse ⊢
    by_cases hd : delay ≤ now - lastRun
    · simp [hd] at hfalse
    · simp [hd]
  · revert hwin
    induction ts generalizing lastRun with
    | nil => intro _; exact Nat.zero_le 1
    | cons t rest ih =>
        intro hwin
        show (if (throttleStep delay lastRun t).1 then 1 else 0)
            + throttleRun delay (throttleStep delay lastRun t).2 rest ≤ 1
        by_cases hd : delay ≤ t - lastRun
        · rw [throttleStep, if_pos hd]
          have hz : throttleRun delay t rest = 0 :=
            throttleRun_eq_zero delay t rest fun x hx => by
              have h1 := hwin x (List.mem_cons_of_mem t hx)
              have h2 := hwin t (List.mem_cons_self t rest)
              omega
          simp [hz]
        · rw [throttleStep, if_neg hd]
          simpa using ih lastRun fun x hx => hwin x (List.mem_cons_of_mem t hx)

/-- Witness for `useThrottle_spec`: `delay = 500`, last run at `0`,
invocations at `600`, `700`, `900` — all inside the 300 ms window
`[600, 900]` — of which only the first executes. -/
theorem useThrottle_spec_witness :
    ((throttleStep 500 0 600).1 = true ↔ (500 : Int) ≤ 600 - 0)
    ∧ ((throttleStep 500 0 600).1 = false → throttleStep 500 0 600 = (false, 0))
    ∧ throttleRun 500 0 [600, 700, 900] ≤ 1 :=
  useThrottle_spec 500 0 600 600 900 [600, 700, 900] (by decide) (by decide)

/-! ## `useLocalStorage` (`src/pages/StateManagementDemo.tsx`) -/

/-- The browser's storage scope: keys to stored strings
(`window.localStorage`). -/
def Store : Type := String → Option String

/-- `setValue`'s argument: `value: T | ((prev: T) => T)`. -/
inductive StorageUpdate (α : Type) where
  | fn (f : α → α)
  | val (v : α)

/-- `value instanceof Function ? value(storedValue) : value`. -/
def resolveUpdate {α : Type} (upd : StorageUpdate α) (storedValue : α) : α :=
  match upd with
  | StorageUpdate.fn f => f storedValue
  | StorageUpdate.val v => v

/-- The `useState` initializer of `useLocalStorage`: read
`localStorage.getItem(key)`; when the entry is a non-empty string
(`if (item)`), parse it (`JSON.parse`, modelled by `parse`), falling back to
`initialValue` when the key is missing, the entry is falsy, or parsing
throws. -/
def useLocalStorageInit {α : Type} (parse : String → Option α) (store : Store)
    (key : String) (initialValue : α) : α :=
  match store key with
  | some item =>
      if item = "" then initialValue else (parse item).getD initialValue
  | none => initialValue

/-- `setValue` of `useLocalStorage`: resolve the functional update against
the current in-memory value, set the state, and write
`JSON.stringify(valueToStore)` (modelled by `stringify`) through to the
store under `key`.  Returns the new in-memory value and the new store. -/
def setValue {α : Type} (stringify : α → String) (store : Store) (key : String)
    (storedValue : α) (upd : StorageUpdate α) : α × Store :=
  let v := resolveUpdate upd storedValue
  (v, fun k => if k = key then some (stringify v) else store k)

/-- C1: `setValue(V)` followed by a read yields `V`, both on the same
instance (the in-memory value) and on a fresh instance created over the
same store with any default (the reload scenario), for any serialization
satisfying the platform JSON round-trip `parse (stringify v) = some v`
with a non-empty rendering of `v`. -/
theorem useLocalStorage_roundTrip {α : Type} (stringify : α → String)
    (parse : String → Option α) (store : Store) (key : String)
    (cur v initial2 : α) (hparse : parse (stringify v) = some v)
    (hne : stringify v ≠ "") :
    (setValue stringify store key cur (StorageUpdate.val v)).1 = v
    ∧ useLocalStorageInit parse
        (setValue stringify store key cur (StorageUpdate.val v)).2 key initial2
      = v := by
  constructor
  · rfl
  · simp [useLocalStorageInit, setValue, resolveUpdate, hne, hparse]

/-- A concrete codec for the witness: numbers rendered in decimal
(`Nat.repr`, as `JSON.stringify` renders a number) and decoded by reading
the decimal digits back. -/
def natParse (s : String) : Option Nat := some (decodeDigits s.data)

/-- Witness for `useLocalStorage_roundTrip`: the spec's reload scenario
`useLocalStorage('n', 0)` → `setValue(5)` → fresh instance reads `5`, with
numbers serialized by their decimal rendering. -/
theorem useLocalStorage_roundTrip_witness :
    natParse (Nat.repr 5) = some 5
    ∧ Nat.repr 5 ≠ ""
    ∧ ((setValue Nat.repr (fun _ => none) "n" 0 (StorageUpdate.val 5)).1 = 5
      ∧ useLocalStorageInit natParse
          (setValue Nat.repr (fun _ => none) "n" 0 (StorageUpdate.val 5)).2
          "n" 0 = 5) :=
  ⟨by decide, by decide,
   useLocalStorage_roundTrip Nat.repr natParse (fun _ => none) "n" 0 5 0
     (by decide) (by decide)⟩

/-! ## Form context provider (`resetForm`) -/

/-- The form provider's state: `formData` (a flat name→value object),
`errors` (a name→message object), `touched` (a `Set<string>`), and the
`isSubmitting` flag.  The objects and the set are modelled as entry
lists. -/
structure FormState (V : Type) where
  formData : List (String × V)
  errors : List (String × String)
  touched : List String
  isSubmitting : Bool
deriving DecidableEq, Repr

/-- `resetForm` from the form context provider:
`setFormData(newInitialData || initialData)`, `setErrorsState({})`,
`setTouched(new Set())`, `setIsSubmitting(false)`.  `initialData` is the
provider's original initial snapshot; the optional argument (absent =
`undefined`, falsy under `||`) replaces the field map wholesale when
given. -/
def resetForm {V : Type} (s : FormState V) (initialData : List (String × V))
    (newInitialData : Option (List (String × V))) : FormState V :=
  { formData := newInitialData.getD initialData, errors := [], touched := [],
    isSubmitting := false }

/-- C8: `resetForm` empties `errors` and `touched`, clears the submitting
flag, and replaces the field map wholesale — with the supplied snapshot
when one is given, with the provider's original snapshot otherwise. -/
theorem resetForm_spec {V : Type} (s : FormState V)
    (initialData : List (String × V)) :
    (∀ d, resetForm s initialData (some d)
        = { formData := d, errors := [], touched := [],
            isSubmitting := false })
    ∧ resetForm s initialData none
        = { formData := initialData, errors := [], touched := [],
            isSubmitting := false } :=
  ⟨fun d => rfl, rfl⟩

end VibeHooks
